import Mathlib

/-!
# Verification of the `xfetch` request wrapper

Shallow embedding of `src/xfetch.js`: a wrapper around a platform-native
`fetch` with a middleware (interceptor) pipeline, request normalization
(method defaulting, header merging, body encoding/decoding), automatic
query-string handling, and an incrementally writable response record.

JavaScript runtime values are modelled by the inductive types `JVal`
(JSON-structured data) and `JsVal` (the payload kinds the source
discriminates on).  Host primitives used by the source (`Headers`, `URL`,
`URLSearchParams`, `JSON.stringify`, `TextEncoder`, the `qs` library) are
modelled by executable Lean functions; `JSON.parse` is kept abstract as a
`String → Option JVal` parameter since the source only relies on its
success/failure split.  Machine-level aspects (object identity, aliasing,
floating point width of JS numbers) are outside the model: numbers are
`Int`, state mutation is explicit state passing.
-/

set_option linter.unusedVariables false

/-- JSON-structured values: the results of `JSON.parse`, the plain
objects/arrays a caller may pass as `init.body` or `init.query`, and the
decoded `query` mapping of a request record. -/
inductive JVal where
  | null
  | bool (b : Bool)
  | num (n : Int)
  | str (s : String)
  | arr (xs : List JVal)
  | obj (fields : List (String × JVal))
  deriving Inhabited

/-- JavaScript runtime values that can appear as `init.body`, as a
`write`/`end` chunk, or as a `send`/`json` payload: primitives, plain
structured values, and the host object kinds the source discriminates on
(`Blob`, `FormData`, `URLSearchParams`, `Uint8Array`). -/
inductive JsVal where
  | undefined
  | null
  | bool (b : Bool)
  | num (n : Int)
  | str (s : String)
  | arr (xs : List JVal)
  | obj (fields : List (String × JVal))
  | blob (bytes : List Nat)
  | formData
  | searchParams (pairs : List (String × String))
  | uint8 (bytes : List Nat)
  deriving Inhabited

/-- JavaScript truthiness of a value (`if (x)`). -/
def JsVal.truthy : JsVal → Bool
  | .undefined => false
  | .null => false
  | .bool b => b
  | .num n => n != 0
  | .str s => s != ""
  | _ => true

/-- `x == null` (loose equality): true exactly for `null` and `undefined`. -/
def JsVal.isNullish : JsVal → Bool
  | .undefined => true
  | .null => true
  | _ => false

mutual
/-- JavaScript string coercion `String(v)` of a JSON-structured value:
arrays stringify via `Array.prototype.join(",")`, plain objects to
`"[object Object]"`. -/
def jvalToJSString : JVal → String
  | .null => "null"
  | .bool b => cond b "true" "false"
  | .num n => toString n
  | .str s => s
  | .arr xs => joinJSString xs
  | .obj _ => "[object Object]"

/-- `Array.prototype.join(",")`: elements are string-coerced, `null`
elements become the empty string. -/
def joinJSString : List JVal → String
  | [] => ""
  | v :: rest =>
      (match v with
        | .null => ""
        | w => jvalToJSString w) ++
      (match rest with
        | [] => ""
        | _ => "," ++ joinJSString rest)
end

/-- JavaScript string coercion `String(v)` of a runtime value, as performed
by `write` on non-string non-binary chunks and by `JSON.parse` /
`URLSearchParams` on non-string arguments. -/
def JsVal.toJSStr (v : JsVal) : String :=
  match v with
  | .undefined => "undefined"
  | .null => "null"
  | .bool b => cond b "true" "false"
  | .num n => toString n
  | .str s => s
  | .arr xs => joinJSString xs
  | .obj _ => "[object Object]"
  | .blob _ => "[object Blob]"
  | .formData => "[object FormData]"
  | .searchParams ps => String.intercalate "&" (ps.map (fun p => p.1 ++ "=" ++ p.2))
  | .uint8 bs => String.intercalate "," (bs.map (fun b => toString b))

/-- UTF-8 encoding of one character (the `TextEncoder` primitive). -/
def utf8Char (c : Char) : List Nat :=
  let n := c.toNat
  if n < 0x80 then [n]
  else if n < 0x800 then [0xC0 + n / 0x40, 0x80 + n % 0x40]
  else if n < 0x10000 then [0xE0 + n / 0x1000, 0x80 + n / 0x40 % 0x40, 0x80 + n % 0x40]
  else [0xF0 + n / 0x40000, 0x80 + n / 0x1000 % 0x40, 0x80 + n / 0x40 % 0x40, 0x80 + n % 0x40]

/-- UTF-8 encoding of a string (`new TextEncoder().encode(s)`). -/
def utf8 (s : String) : List Nat := s.data.flatMap utf8Char

/-- Does the string match `/^\d+$/` (nonempty, all ASCII digits)? -/
def isAllDigits (s : String) : Bool := !s.isEmpty && s.data.all (fun c => c.isDigit)

/-- Numeric value of an all-digit string (`Number(s)` on such strings). -/
def digitsToInt (s : String) : Int :=
  (s.data.foldl (fun a c => a * 10 + (c.toNat - 48)) 0 : Nat)

/-! ## Generic string and association-list helpers -/

/-- ASCII lower-casing of a string (header names; `String.prototype.toLowerCase`
restricted to the ASCII header names the source uses). -/
def lowerStr (s : String) : String := ⟨s.data.map Char.toLower⟩

/-- ASCII upper-casing of a string (`String.prototype.toUpperCase` on method
tokens). -/
def upperStr (s : String) : String := ⟨s.data.map Char.toUpper⟩

/-- Does `hay` start with `need`? -/
def listStartsWith : List Char → List Char → Bool
  | _, [] => true
  | [], _ :: _ => false
  | c :: t, d :: u => c = d && listStartsWith t u

/-- Does `need` occur as a contiguous run inside `hay`? -/
def listIncludes (hay need : List Char) : Bool :=
  listStartsWith hay need ||
    match hay with
    | [] => false
    | _ :: t => listIncludes t need

/-- `String.prototype.includes`. -/
def strIncludes (s sub : String) : Bool := listIncludes s.data sub.data

/-- Split a character list on a separator character (keeping empty segments,
like `"a&&b".split('&')`). -/
def splitOnChar (sep : Char) : List Char → List (List Char)
  | [] => [[]]
  | c :: rest =>
      let r := splitOnChar sep rest
      if c = sep then [] :: r
      else
        match r with
        | [] => [[c]]
        | h :: t => (c :: h) :: t

/-- Split a segment at its first `=` into key and value characters; a segment
without `=` yields an empty value. -/
def splitFirstEq : List Char → List Char × List Char
  | [] => ([], [])
  | '=' :: rest => ([], rest)
  | c :: rest =>
      let p := splitFirstEq rest
      (c :: p.1, p.2)

/-- Value of a hex digit character, if any. -/
def hexVal (c : Char) : Option Nat :=
  if c.isDigit then some (c.toNat - 48)
  else if 65 ≤ c.toNat && c.toNat ≤ 70 then some (c.toNat - 55)
  else if 97 ≤ c.toNat && c.toNat ≤ 102 then some (c.toNat - 87)
  else none

/-- `application/x-www-form-urlencoded` decoding of a character sequence:
`+` becomes a space and `%HH` becomes the byte `HH` (multi-byte UTF-8
sequences are modelled byte-by-byte; the claims only exercise ASCII). -/
def formDecodeChars : List Char → List Char
  | [] => []
  | '+' :: rest => ' ' :: formDecodeChars rest
  | '%' :: a :: b :: rest =>
      match hexVal a, hexVal b with
      | some x, some y => Char.ofNat (16 * x + y) :: formDecodeChars rest
      | _, _ => '%' :: formDecodeChars (a :: b :: rest)
  | c :: rest => c :: formDecodeChars rest

/-- Hex digit character (uppercase) for percent-encoding. -/
def hexDigit (n : Nat) : Char := if n < 10 then Char.ofNat (48 + n) else Char.ofNat (55 + n)

/-- Is the character left unescaped by `encodeURIComponent`? -/
def uriUnreserved (c : Char) : Bool :=
  c.isAlphanum || c = '-' || c = '_' || c = '.' || c = '!' || c = '~' || c = '*' ||
    c.toNat = 39 || c = '(' || c = ')'

/-- `encodeURIComponent`: unreserved characters kept, everything else
percent-encoded from its UTF-8 bytes. -/
def percentEncode (s : String) : String :=
  ⟨s.data.flatMap fun c =>
    if uriUnreserved c then [c]
    else (utf8Char c).flatMap fun b => ['%', hexDigit (b / 16), hexDigit (b % 16)]⟩

/-- Exact-key association update: replace the value at the first occurrence of
the key, keeping its position, else append (plain-object property write). -/
def assocSet {α : Type} : List (String × α) → String → α → List (String × α)
  | [], k, v => [(k, v)]
  | (k', v') :: t, k, v =>
      if k' = k then (k', v) :: t else (k', v') :: assocSet t k v

/-- Exact-key association lookup (plain-object property read). -/
def assocGet {α : Type} : List (String × α) → String → Option α
  | [], _ => none
  | (k', v') :: t, k => if k' = k then some v' else assocGet t k

/-- `Object.fromEntries`: later duplicate keys overwrite earlier ones while the
key keeps its first position. -/
def fromEntries {α : Type} (ps : List (String × α)) : List (String × α) :=
  ps.foldl (fun acc p => assocSet acc p.1 p.2) []

/-! ## The `Headers` host primitive

Header names are stored lower-cased; `append` combines duplicate names with
`", "`, so storage keeps each name at most once.  (The sorted iteration order
of real `Headers` objects is not modelled; no claim depends on entry order.) -/

/-- `Headers.prototype.append`, the operation the `Headers(init)` constructor
performs for each seeded pair. -/
def hdrAppend : List (String × String) → String → String → List (String × String)
  | [], k, v => [(lowerStr k, v)]
  | (k', v') :: t, k, v =>
      if k' = lowerStr k then (k', v' ++ ", " ++ v) :: t
      else (k', v') :: hdrAppend t k v

/-- `new Headers(init)`: seed an empty header map with the given pairs. -/
def headersNew (ps : List (String × String)) : List (String × String) :=
  ps.foldl (fun h p => hdrAppend h p.1 p.2) []

/-- `Headers.prototype.set`: case-insensitive replace-or-append. -/
def hdrSet : List (String × String) → String → String → List (String × String)
  | [], k, v => [(lowerStr k, v)]
  | (k', v') :: t, k, v =>
      if k' = lowerStr k then (k', v) :: t
      else (k', v') :: hdrSet t k v

/-- `Headers.prototype.get`: case-insensitive lookup. -/
def hdrGet (h : List (String × String)) (k : String) : Option String :=
  assocGet h (lowerStr k)

/-- `Headers.prototype.has`. -/
def hdrHas (h : List (String × String)) (k : String) : Bool := (hdrGet h k).isSome

/-! ## `JSON.stringify` -/

/-- JSON escaping of one character inside a string literal. -/
def jsonEscapeChar (c : Char) : List Char :=
  if c = '"' then ['\\', '"']
  else if c = '\\' then ['\\', '\\']
  else if c = '\n' then ['\\', 'n']
  else if c = '\r' then ['\\', 'r']
  else if c = '\t' then ['\\', 't']
  else if c.toNat = 8 then ['\\', 'b']
  else if c.toNat = 12 then ['\\', 'f']
  else if c.toNat < 32 then
    ['\\', 'u', '0', '0', hexDigit (c.toNat / 16), hexDigit (c.toNat % 16)]
  else [c]

/-- A JSON string literal for `s`. -/
def jsonQuote (s : String) : String :=
  "\"" ++ ⟨s.data.flatMap jsonEscapeChar⟩ ++ "\""

mutual
/-- `JSON.stringify` of a JSON-structured value. -/
def JVal.stringify : JVal → String
  | .null => "null"
  | .bool b => cond b "true" "false"
  | .num n => toString n
  | .str s => jsonQuote s
  | .arr xs => "[" ++ stringifyElems xs ++ "]"
  | .obj fs => "\x7b" ++ stringifyFields fs ++ "\x7d"

/-- Comma-separated serialization of array elements. -/
def stringifyElems : List JVal → String
  | [] => ""
  | [v] => v.stringify
  | v :: rest => v.stringify ++ "," ++ stringifyElems rest

/-- Comma-separated serialization of object fields. -/
def stringifyFields : List (String × JVal) → String
  | [] => ""
  | [(k, v)] => jsonQuote k ++ ":" ++ v.stringify
  | (k, v) :: rest => jsonQuote k ++ ":" ++ v.stringify ++ "," ++ stringifyFields rest
end

/-- The fields `JSON.stringify` sees on a `Uint8Array`: its indices as keys. -/
def uint8Fields (bs : List Nat) : List (String × JVal) :=
  bs.enum.map fun p => (toString p.1, JVal.num (p.2 : Nat))

/-- `JSON.stringify` of a runtime value; `undefined` for `undefined` (the
source then passes it to `end`, which ignores falsy chunks).  Host objects
without enumerable own properties serialize to `"{}"`; a `Uint8Array`
serializes its indexed entries. -/
def jsonStringifyJs : JsVal → Option String
  | .undefined => none
  | .null => some "null"
  | .bool b => some (cond b "true" "false")
  | .num n => some (toString n)
  | .str s => some (jsonQuote s)
  | .arr xs => some (JVal.arr xs).stringify
  | .obj fs => some (JVal.obj fs).stringify
  | .blob _ => some "\x7b\x7d"
  | .formData => some "\x7b\x7d"
  | .searchParams _ => some "\x7b\x7d"
  | .uint8 bs => some (JVal.obj (uint8Fields bs)).stringify

/-! ## Query strings: the `qs` library and `URLSearchParams` -/

/-- Decode an `&`-separated query character sequence into raw key/value pairs:
empty segments are skipped, each segment splits at its first `=`, and both
sides are form-decoded.  Shared core of `URLSearchParams` parsing and
`qs.parse`. -/
def queryPairs (cs : List Char) : List (String × String) :=
  (splitOnChar '&' cs).filterMap fun seg =>
    if seg.isEmpty then none
    else
      let p := splitFirstEq seg
      some (⟨formDecodeChars p.1⟩, ⟨formDecodeChars p.2⟩)

/-- `new URLSearchParams(s)` for a string argument: a single leading `?` is
stripped, then the string is decoded into pairs. -/
def uspParsePairs (s : String) : List (String × String) :=
  queryPairs (match s.data with
    | '?' :: t => t
    | l => l)

/-- `new URLSearchParams(init)` for an arbitrary runtime value: strings are
parsed, an existing container is copied, a plain object is read as a record
(values string-coerced), host objects without enumerable own properties give
an empty container, and remaining primitives are string-coerced then parsed.
(The sequence-of-pairs form for arrays throws in JS unless every element is a
pair; it is unreachable from the source, which never passes arrays here, and
is modelled as empty.) -/
def uspOf : JsVal → List (String × String)
  | .undefined => []
  | .str s => uspParsePairs s
  | .searchParams ps => ps
  | .obj fs => fs.map fun p => (p.1, jvalToJSString p.2)
  | .blob _ => []
  | .formData => []
  | .arr _ => []
  | .uint8 _ => []
  | v => uspParsePairs v.toJSStr

mutual
/-- `qs.stringify` serialization of one value under a bracketed key
expression (default `qs` options: indices for arrays, `k=` for `null`). -/
def qsEntries (keyExpr : String) : JVal → List (String × String)
  | .null => [(keyExpr, "")]
  | .bool b => [(keyExpr, cond b "true" "false")]
  | .num n => [(keyExpr, toString n)]
  | .str s => [(keyExpr, s)]
  | .arr xs => qsEntriesElems keyExpr 0 xs
  | .obj fs => qsEntriesFields keyExpr fs

/-- Entries of an object value, keys wrapped in brackets. -/
def qsEntriesFields (keyExpr : String) : List (String × JVal) → List (String × String)
  | [] => []
  | (k, v) :: t => qsEntries (keyExpr ++ "[" ++ k ++ "]") v ++ qsEntriesFields keyExpr t

/-- Entries of an array value, indexed. -/
def qsEntriesElems (keyExpr : String) (i : Nat) : List JVal → List (String × String)
  | [] => []
  | v :: t => qsEntries (keyExpr ++ "[" ++ toString i ++ "]") v ++ qsEntriesElems keyExpr (i + 1) t
end

/-- Top-level entries of `qs.stringify`: field names are used bare. -/
def qsTopEntries : List (String × JVal) → List (String × String)
  | [] => []
  | (k, v) :: t => qsEntries k v ++ qsTopEntries t

/-- `qs.stringify`: percent-encode every key expression and value and join
with `=` and `&`.  Non-object arguments serialize to the empty string; a
top-level array uses its indices as keys. -/
def qsStringify (q : JsVal) : String :=
  let entries : List (String × String) :=
    match q with
    | .obj fs => qsTopEntries fs
    | .arr xs => qsTopEntries (xs.enum.map fun p => (toString p.1, p.2))
    | _ => []
  String.intercalate "&" (entries.map fun p => percentEncode p.1 ++ "=" ++ percentEncode p.2)

/-- One step of `qs.parse`: merge a raw pair into the result object, turning
duplicate keys into arrays. -/
def qsStep (fields : List (String × JVal)) (p : String × String) : List (String × JVal) :=
  match assocGet fields p.1 with
  | none => fields ++ [(p.1, .str p.2)]
  | some (.arr xs) => assocSet fields p.1 (.arr (xs ++ [.str p.2]))
  | some old => assocSet fields p.1 (.arr [old, .str p.2])

/-- `qs.parse` of an already-`?`-stripped query string.  All decoded leaf
values are strings; duplicate keys collect into arrays.  (The bracket
nesting of `qs` is not modelled; no claim exercises nested query keys.) -/
def qsParse (s : String) : JVal := .obj ((queryPairs s.data).foldl qsStep [])

mutual
/-- The numeric coercion the source applies to the parsed query object:
`JSON.parse(JSON.stringify(q, (k, v) => /^\d+$/.test(v) ? Number(v) : v))`.
The replacer string-coerces each value before the digit test and runs
top-down, so an all-digit string becomes a number, and (a quirk of the
string coercion) so does an array whose joined string coercion is all
digits; otherwise the coercion recurses into the structure. -/
def coerceDigits : JVal → JVal
  | .null => .null
  | .bool b => .bool b
  | .num n => .num n
  | .str s => if isAllDigits s then .num (digitsToInt s) else .str s
  | .arr xs =>
      let j := jvalToJSString (.arr xs)
      if isAllDigits j then .num (digitsToInt j) else .arr (coerceElems xs)
  | .obj fs => .obj (coerceFields fs)

/-- `coerceDigits` over array elements. -/
def coerceElems : List JVal → List JVal
  | [] => []
  | v :: t => coerceDigits v :: coerceElems t

/-- `coerceDigits` over object field values. -/
def coerceFields : List (String × JVal) → List (String × JVal)
  | [] => []
  | (k, v) :: t => (k, coerceDigits v) :: coerceFields t
end

/-! ## URL composition and parsing -/

/-- A regex word character (`\w`). -/
def wordChar (c : Char) : Bool := c.isAlphanum || c = '_'

/-- `extractProtocol` (src/xfetch.js line 77): match `/^(\w+):\/\//` and
return the captured scheme token. -/
def extractProtocol (url : String) : Option String :=
  let w := url.data.takeWhile wordChar
  if !w.isEmpty && listStartsWith (url.data.drop w.length) "://".data then some ⟨w⟩
  else none

/-- `appendQueryParams` (src/xfetch.js line 71): serialize a truthy query
with `qs.stringify` and append it with `&` if the URL already contains `?`,
else with `?`. -/
def appendQueryParams (url : String) (query : JsVal) : String :=
  if !query.truthy then url
  else
    let queryString := qsStringify query
    if strIncludes url "?" then url ++ "&" ++ queryString
    else url ++ "?" ++ queryString

/-- The components of a parsed URL the source reads (`new URL(u, base)`). -/
structure ParsedURL where
  scheme : String
  host : String
  pathname : String
  search : String
  hash : String
  href : String
  deriving DecidableEq, Inhabited

/-- `new URL(url, 'http://default')`, reduced to the components the source
reads: the fragment starts at the first `#`, the query at the first `?`
before it; an absolute `scheme://` URL splits into scheme/host/path, anything
else resolves against `http://default`.  (Deviations of exotic inputs —
non-hierarchical schemes, protocol-relative URLs, invalid URLs that make the
host parser throw — are outside the model; no claim depends on them.) -/
def parseURL (url : String) : ParsedURL :=
  let cs := url.data
  let beforeHash := cs.takeWhile (fun c => c ≠ '#')
  let hashPart : String := ⟨cs.drop beforeHash.length⟩
  let beforeQ := beforeHash.takeWhile (fun c => c ≠ '?')
  let searchPart : String := ⟨beforeHash.drop beforeQ.length⟩
  let w := beforeQ.takeWhile wordChar
  let shp : String × String × String :=
    if !w.isEmpty && listStartsWith (beforeQ.drop w.length) "://".data then
      let rest := beforeQ.drop (w.length + 3)
      let host := rest.takeWhile (fun c => c ≠ '/')
      let path := rest.drop host.length
      (lowerStr ⟨w⟩, ⟨host⟩, if path.isEmpty then "/" else ⟨path⟩)
    else
      ("http", "default",
        match beforeQ with
        | [] => "/"
        | '/' :: t => ⟨'/' :: t⟩
        | l => ⟨'/' :: l⟩)
  { scheme := shp.1, host := shp.2.1, pathname := shp.2.2,
    search := searchPart, hash := hashPart,
    href := shp.1 ++ "://" ++ shp.2.1 ++ shp.2.2 ++ searchPart ++ hashPart }

/-! ## Request normalization -/

/-- Embedding of parsed JSON back into the runtime value type. -/
def jvalToJsVal : JVal → JsVal
  | .null => .null
  | .bool b => .bool b
  | .num n => .num n
  | .str s => .str s
  | .arr xs => .arr xs
  | .obj fs => .obj fs

/-- `parseBody` (src/xfetch.js line 101): decode the (post-encoding) body for
middleware consumption.  A falsy body or a missing/empty `Content-Type`
passes through; a type containing `application/json` is parsed with
`JSON.parse`, falling back to the raw body on failure (the `try`/`catch`);
a type containing `application/x-www-form-urlencoded` becomes
`Object.fromEntries(new URLSearchParams(body))`; anything else passes
through.  `JSON.parse` is abstract (`jp`), applied to the string coercion of
the body. -/
def parseBody (jp : String → Option JVal) (body : JsVal)
    (headers : List (String × String)) : JsVal :=
  let type := hdrGet headers "Content-Type"
  if !body.truthy then body
  else
    match type with
    | none => body
    | some t =>
      if t = "" then body
      else if strIncludes t "application/json" then
        match jp body.toJSStr with
        | some v => jvalToJsVal v
        | none => body
      else if strIncludes t "application/x-www-form-urlencoded" then
        .obj ((fromEntries (uspOf body)).map fun p => (p.1, JVal.str p.2))
      else body

/-- Method resolution (src/xfetch.js line 24):
`(init.method || (init.body ? 'POST' : 'GET')).toUpperCase()`. -/
def computeMethod (method : Option String) (body : JsVal) : String :=
  upperStr
    (match method with
      | some s => if s ≠ "" then s else if body.truthy then "POST" else "GET"
      | none => if body.truthy then "POST" else "GET")

/-- Set `Content-Type: application/json` unless a `Content-Type` is present. -/
def ctJson (h : List (String × String)) : List (String × String) :=
  if hdrHas h "Content-Type" then h else hdrSet h "Content-Type" "application/json"

/-- Body encoding (src/xfetch.js lines 27–45).  Nullish bodies are skipped.
A `URLSearchParams` body is kept and defaults the `Content-Type` to the
form-urlencoded type.  Otherwise any body with `typeof body === 'object'`
that is neither a `Blob` nor a `FormData` — plain objects and arrays, but
also `Uint8Array`s — defaults the `Content-Type` to `application/json` and is
replaced by its `JSON.stringify` text.  Everything else is left as-is.
Returns the (possibly updated) headers and body. -/
def encodeBody (headers : List (String × String)) (body : JsVal) :
    List (String × String) × JsVal :=
  match body with
  | .null => (headers, body)
  | .undefined => (headers, body)
  | .searchParams ps =>
      (if hdrHas headers "Content-Type" then headers
       else hdrSet headers "Content-Type" "application/x-www-form-urlencoded;charset=UTF-8",
       .searchParams ps)
  | .arr xs => (ctJson headers, .str (JVal.stringify (.arr xs)))
  | .obj fs => (ctJson headers, .str (JVal.stringify (.obj fs)))
  | .uint8 bs => (ctJson headers, .str (JVal.stringify (.obj (uint8Fields bs))))
  | other => (headers, other)

/-! ## Response builder (`createResObject`, src/xfetch.js line 118) -/

/-- The assembled final response of `end`:
`new Response(new Blob(bodyChunks, {type}), {status, headers})`, reduced to
its observable content — status, headers, the Blob's type, and the
concatenated body bytes. -/
structure Deliverable where
  status : Int
  headers : List (String × String)
  contentType : String
  body : List Nat
  deriving DecidableEq, Inhabited

/-- The state of a Response Record: the `_sent` flag, status, the
case-sensitive plain header object, the buffered byte chunks, and the
`response` field once built. -/
structure ResState where
  sent : Bool := false
  statusCode : Int := 200
  headers : List (String × String) := []
  chunks : List (List Nat) := []
  response : Option Deliverable := none
  deriving DecidableEq, Inhabited

/-- `status(code)` (the chaining setter, state part). -/
def resStatus (st : ResState) (code : Int) : ResState := { st with statusCode := code }

/-- `setHeader(key, value)`: exact-key plain-object write. -/
def resSetHeader (st : ResState) (k v : String) : ResState :=
  { st with headers := assocSet st.headers k v }

/-- `getHeader(key)`: exact-key plain-object read. -/
def resGetHeader (st : ResState) (k : String) : Option String := assocGet st.headers k

/-- `write(chunk)`: strings are UTF-8 encoded, `Uint8Array`s pushed as-is,
nullish chunks ignored, anything else string-coerced then encoded. -/
def resWrite (st : ResState) (chunk : JsVal) : ResState :=
  match chunk with
  | .str s => { st with chunks := st.chunks ++ [utf8 s] }
  | .uint8 bs => { st with chunks := st.chunks ++ [bs] }
  | .null => st
  | .undefined => st
  | c => { st with chunks := st.chunks ++ [utf8 c.toJSStr] }

/-- Build the deliverable from the current state: concatenated chunks, typed
by `headers['Content-Type'] || 'text/plain'`, with the current status and
headers. -/
def mkDeliverable (st : ResState) : Deliverable :=
  { status := st.statusCode,
    headers := st.headers,
    contentType :=
      match assocGet st.headers "Content-Type" with
      | some v => if v = "" then "text/plain" else v
      | none => "text/plain",
    body := st.chunks.flatten }

/-- `end(chunk)`: write the chunk if truthy (`if (chunk) this.write(chunk)`),
set `_sent`, and (re)build the deliverable. -/
def resEnd (st : ResState) (chunk : JsVal) : ResState :=
  let st1 := if chunk.truthy then resWrite st chunk else st
  { st1 with sent := true, response := some (mkDeliverable st1) }

/-- `json(data)`: set the JSON content type and `end` with the serialized
payload (`JSON.stringify(undefined)` is `undefined`, which `end` ignores). -/
def resJson (st : ResState) (data : JsVal) : ResState :=
  let st1 := resSetHeader st "Content-Type" "application/json"
  resEnd st1
    (match jsonStringifyJs data with
      | some s => .str s
      | none => .undefined)

/-- The `isJSON` test of `send`:
`typeof data === 'object' && data !== null && !(data instanceof Blob)`.
True for plain objects and arrays, but also for `Uint8Array`,
`URLSearchParams` and `FormData` values. -/
def sendIsJSON : JsVal → Bool
  | .arr _ => true
  | .obj _ => true
  | .uint8 _ => true
  | .searchParams _ => true
  | .formData => true
  | _ => false

/-- `send(data)`: on the `isJSON` branch the source repeats the two
statements of `json` verbatim; otherwise it is `end(data)`. -/
def resSend (st : ResState) (data : JsVal) : ResState :=
  if sendIsJSON data then
    let st1 := resSetHeader st "Content-Type" "application/json"
    resEnd st1
      (match jsonStringifyJs data with
        | some s => .str s
        | none => .undefined)
  else resEnd st data

/-! ## Request Record and dispatch (`xfetch`, src/xfetch.js line 21) -/

/-- Drop the first character (`''.slice(1)` on the `?`-prefixed search). -/
def dropFirst (s : String) : String := ⟨s.data.drop 1⟩

/-- The Request Record visible to middlewares. -/
structure ReqObj where
  method : String
  url : String
  protocol : String
  headers : List (String × String)
  query : JVal
  body : JsVal

/-- `createReqObject` (src/xfetch.js line 82): method as resolved, `url` as
pathname plus search, protocol from the href with an `http` fallback, a
plain-object snapshot of the headers, the digit-coerced parse of the query
string, and the decoded body. -/
def createReqObject (jp : String → Option JVal) (url : ParsedURL) (method : String)
    (headers : List (String × String)) (body : JsVal) : ReqObj :=
  { method := method,
    url := url.pathname ++ url.search,
    protocol := (extractProtocol url.href).getD "http",
    headers := headers,
    query := coerceDigits (qsParse (dropFirst url.search)),
    body := parseBody jp body headers }

/-- `input`: a URL string or a request-like object exposing a `url` field. -/
inductive FetchInput where
  | str (s : String)
  | reqLike (url : String)

/-- The target URL of an input
(`typeof input === 'string' ? input : input.url`). -/
def FetchInput.urlOf : FetchInput → String
  | .str s => s
  | .reqLike u => u

/-- The recognized `init` options; all optional. -/
structure FetchInit where
  method : Option String := none
  headers : List (String × String) := []
  body : JsVal := .undefined
  query : JsVal := .undefined

/-- The arguments of the one real network call
`fetch(finalUrl, { ...init, method, headers, body })`. -/
structure WireCall where
  url : String
  method : String
  headers : List (String × String)
  body : JsVal

/-- What a dispatch returns: either the middleware-built response
(`res.response`, absent in the degenerate case where `_sent` was forced
without `end`) or the pass-through result of the network call. -/
inductive DispatchResult where
  | middlewareResponse (r : Option Deliverable)
  | network (c : WireCall)

/-- A dispatch outcome: the returned value together with the network calls
performed, so that "no network call" and "exactly one network call" are
expressible. -/
structure DispatchOutcome where
  result : DispatchResult
  calls : List WireCall

/-- Everything `xfetch` computes before the middleware pass (src/xfetch.js
lines 22–59): seeded headers, resolved method, encoded body, composed URL,
and the Request Record built from the parsed URL. -/
structure Normalized where
  finalUrl : String
  method : String
  headers : List (String × String)
  body : JsVal
  req : ReqObj

/-- The normalization stage of a dispatch. -/
def normalizeReq (jp : String → Option JVal) (input : FetchInput) (init : FetchInit) :
    Normalized :=
  let headers0 := headersNew init.headers
  let method := computeMethod init.method init.body
  let hb := encodeBody headers0 init.body
  let finalUrl := appendQueryParams input.urlOf init.query
  let parsedUrl := parseURL finalUrl
  { finalUrl := finalUrl, method := method, headers := hb.1, body := hb.2,
    req := createReqObject jp parsedUrl method hb.1 hb.2 }

/-- The wire call a dispatch performs when no middleware finalizes the
response: exactly the pre-middleware normalized URL, method, headers and
body. -/
def wireCall (jp : String → Option JVal) (input : FetchInput) (init : FetchInit) :
    WireCall :=
  let n := normalizeReq jp input init
  { url := n.finalUrl, method := n.method, headers := n.headers, body := n.body }

/-- `xfetch` (src/xfetch.js lines 21–67).  The middleware pass is abstracted
as a transformation `mw` of the (Request Record, Response Record) pair:
every completed (non-throwing) run of `runMiddlewares` realizes some such
transformation.  After the pass, `res._sent` selects between returning
`res.response` (no network call) and performing the single network call with
the pre-computed values. -/
def xfetch (jp : String → Option JVal) (mw : ReqObj → ResState → ReqObj × ResState)
    (input : FetchInput) (init : FetchInit) : DispatchOutcome :=
  let n := normalizeReq jp input init
  let res0 : ResState := {}
  let res := (mw n.req res0).2
  if res.sent then { result := .middlewareResponse res.response, calls := [] }
  else
    { result := .network (wireCall jp input init), calls := [wireCall jp input init] }

/-! ## Middleware engine (`runMiddlewares`, src/xfetch.js line 172)

For the continuation-discipline analysis a middleware is abstracted to its
observable interaction with the engine: the sequence of continuation
invocations it performs.  Entry `k` in a middleware's list invokes the
continuation handed to the frame at chain index `k` — its own frame's
continuation, or a stale closure captured from another frame.  Mutation of
the request/response records is orthogonal to the engine's control flow (it
is the `mw` abstraction in `xfetch`). -/

/-- Engine state: `index` is the monotonic `index` variable of
`runMiddlewares` (starts at `-1`), `called` holds the per-frame single-use
flags in frame order, and `trace` records the middleware indices invoked, in
order. -/
structure MwState where
  index : Int
  called : List Bool
  trace : List Nat
  deriving DecidableEq, Inhabited

/-- Engine outcomes other than normal completion.  `doubleInvocation i` is
the `Error` thrown with message
`next() called multiple times in middleware at index ${i}` (thrown by the
per-frame guard with `i = k`, and by the index guard in `next(i)` with
`i - 1`).  `invalidContRef` marks an action list referring to a continuation
that does not exist yet (no JS counterpart — a middleware cannot hold a
closure that was never created); `outOfFuel` is an artifact of the fueled
interpreter. -/
inductive MwErr where
  | doubleInvocation (i : Int)
  | invalidContRef (k : Nat)
  | outOfFuel
  deriving DecidableEq

/-- The mutually recursive pieces of `runMiddlewares` as one call tag:
`.next i` is `next(i)`; `.acts l` runs the remaining continuation
invocations of the current middleware body; `.invoke k` is the continuation
closure handed to frame `k` (guarded by frame `k`'s `called` flag, bound to
`next(k + 1)`). -/
inductive EngCall where
  | next (i : Nat)
  | acts (l : List Nat)
  | invoke (k : Nat)

/-- One fueled interpreter for the engine.  `next(i)` fails on the monotonic
index guard (`i <= index`), else records the new high index; a missing
middleware at `i` terminates the chain successfully; otherwise frame `i` is
created with a fresh `called = false` flag and the middleware body runs.
Invoking the continuation of frame `k` fails on the per-frame guard if its
flag is set, else sets the flag and proceeds to `next(k + 1)`. -/
def engineStep (mws : List (List Nat)) : Nat → EngCall → MwState → Except MwErr MwState
  | 0, _, _ => .error .outOfFuel
  | fuel + 1, .next i, st =>
      if (i : Int) ≤ st.index then .error (.doubleInvocation ((i : Int) - 1))
      else
        let st1 : MwState := { st with index := (i : Int) }
        match mws[i]? with
        | none => .ok st1
        | some body =>
            engineStep mws fuel (.acts body)
              { st1 with called := st1.called ++ [false], trace := st1.trace ++ [i] }
  | _ + 1, .acts [], st => .ok st
  | fuel + 1, .acts (k :: rest), st =>
      match engineStep mws fuel (.invoke k) st with
      | .ok st' => engineStep mws fuel (.acts rest) st'
      | .error e => .error e
  | fuel + 1, .invoke k, st =>
      match st.called[k]? with
      | none => .error (.invalidContRef k)
      | some true => .error (.doubleInvocation (k : Int))
      | some false =>
          engineStep mws fuel (.next (k + 1)) { st with called := st.called.set k true }

/-- The engine's initial state: index before 0, no frames, nothing run. -/
def mwStart : MwState := ⟨-1, [], []⟩

/-- Fuel ample for any complete run (the fueled interpreter's recursion depth
is bounded by the chain's total action count plus a few levels per frame). -/
def engineFuel (mws : List (List Nat)) : Nat :=
  3 * mws.length + (mws.map List.length).sum + 3

/-- `await runMiddlewares(req, res)`, control-flow part: run `next()` from
the initial state. -/
def runMiddlewares (mws : List (List Nat)) : Except MwErr MwState :=
  engineStep mws (engineFuel mws) (.next 0) mwStart

/-- The reachable-state invariant of the engine: the single-use flags are a
block of `true`s optionally followed by one fresh `false` flag (only the
most recent frame can still have an unused continuation), the monotonic
index equals the number of consumed flags, and the trace lists the entered
middleware indices `0, 1, …` in order. -/
def MwInv (st : MwState) : Prop :=
  ∃ (m : Nat) (b : Bool),
    st.called = List.replicate m true ++ (cond b [false] []) ∧
    st.index = (m : Int) ∧
    st.trace = List.range st.called.length

/-! ## Classification helpers and spec-side definitions

The `spec…` definitions below are not translations of the source: they state
amended claims in the claims' own vocabulary, to be proved equal to the
source-derived functions. -/

/-- JS `typeof v === 'object'` (true for `null` as well). -/
def jsTypeofObject : JsVal → Bool
  | .null => true
  | .arr _ => true
  | .obj _ => true
  | .blob _ => true
  | .formData => true
  | .searchParams _ => true
  | .uint8 _ => true
  | _ => false

/-- `v instanceof Blob`. -/
def isBlobVal : JsVal → Bool
  | .blob _ => true
  | _ => false

/-- `v instanceof FormData`. -/
def isFormDataVal : JsVal → Bool
  | .formData => true
  | _ => false

/-- `v instanceof URLSearchParams`. -/
def isUrlParamsVal : JsVal → Bool
  | .searchParams _ => true
  | _ => false

/-- `v === null`. -/
def isNullVal : JsVal → Bool
  | .null => true
  | _ => false

/-- Amended claim C3, stated from its words: the method is the upper-casing
of `init.method` when that is a supplied non-empty string; otherwise it is
`POST` exactly when `init.body` is truthy, else `GET`. -/
def specMethod (method : Option String) (body : JsVal) : String :=
  match method with
  | some s =>
      if s = "" then (if body.truthy then "POST" else "GET")
      else upperStr s
  | none => if body.truthy then "POST" else "GET"

/-- Amended claim C4, stated from its words: a nullish body is untouched; an
already-encoded URL-parameter container is kept byte-for-byte and defaults
the `Content-Type` to the form-urlencoded type; any other non-null body of
object type that is neither a `Blob` nor a `FormData` — plain objects and
arrays, but also typed arrays — is serialized to JSON text and defaults the
`Content-Type` to `application/json`; every remaining body (strings,
numbers, booleans, `Blob`s, `FormData`) is left as-is. -/
def specEncodeBody (headers : List (String × String)) (body : JsVal) :
    List (String × String) × JsVal :=
  if body.isNullish then (headers, body)
  else if isUrlParamsVal body then
    (if hdrHas headers "Content-Type" then headers
     else hdrSet headers "Content-Type" "application/x-www-form-urlencoded;charset=UTF-8",
     body)
  else if jsTypeofObject body && !isBlobVal body && !isFormDataVal body then
    (if hdrHas headers "Content-Type" then headers
     else hdrSet headers "Content-Type" "application/json",
     .str ((jsonStringifyJs body).getD ""))
  else (headers, body)

/-- Amended claim C6's `send` test, stated from its words: the payload is
JSON-treated exactly when it is non-null, of object type, and not a binary
`Blob` (this includes typed arrays and form containers). -/
def specSendJson (data : JsVal) : Bool :=
  jsTypeofObject data && !isNullVal data && !isBlobVal data

mutual
/-- No all-digit string occurs anywhere in the structure (the shape of the
query mapping after the source's numeric coercion). -/
def noDigitStrings : JVal → Bool
  | .null => true
  | .bool _ => true
  | .num _ => true
  | .str s => !isAllDigits s
  | .arr xs => noDigitStringsElems xs
  | .obj fs => noDigitStringsFields fs

/-- `noDigitStrings` over array elements. -/
def noDigitStringsElems : List JVal → Bool
  | [] => true
  | v :: t => noDigitStrings v && noDigitStringsElems t

/-- `noDigitStrings` over object field values. -/
def noDigitStringsFields : List (String × JVal) → Bool
  | [] => true
  | (_, v) :: t => noDigitStrings v && noDigitStringsFields t
end

/-- The precondition under which each engine entry point is invoked during a
run: `next(i)` always runs with all `i` existing flags consumed, the index
one below `i`, and the trace listing `0 … i-1`; middleware bodies and
continuations run in invariant states. -/
def EngPre : EngCall → MwState → Prop
  | .next i, st =>
      st.called = List.replicate i true ∧ st.index = (i : Int) - 1 ∧
        st.trace = List.range i
  | .acts _, st => MwInv st
  | .invoke _, st => MwInv st

lemma repl_some_eq_true {m k : Nat} {f : Bool}
    (h : (List.replicate m true)[k]? = some f) : f = true := by
  induction m generalizing k with
  | zero => simp at h
  | succ m ih =>
    cases k with
    | zero => simpa using h.symm
    | succ k => rw [List.replicate_succ, List.getElem?_cons_succ] at h; exact ih h

lemma repl_app_false_some {m k : Nat}
    (h : (List.replicate m true ++ [false])[k]? = some false) : k = m := by
  induction m generalizing k with
  | zero =>
    cases k with
    | zero => rfl
    | succ k => simp at h
  | succ m ih =>
    cases k with
    | zero => simp [List.replicate_succ] at h
    | succ k =>
      rw [List.replicate_succ, List.cons_append, List.getElem?_cons_succ] at h
      exact congrArg Nat.succ (ih h)

lemma called_some_false {m k : Nat} {b : Bool}
    (h : (List.replicate m true ++ (cond b [false] []))[k]? = some false) :
    b = true ∧ k = m := by
  cases b with
  | false =>
    simp only [cond] at h
    rw [List.append_nil] at h
    exact absurd (repl_some_eq_true h) (by simp)
  | true => exact ⟨rfl, repl_app_false_some h⟩

lemma called_some_true {m k : Nat} {b : Bool}
    (h : (List.replicate m true ++ (cond b [false] []))[k]? = some true) : k < m := by
  by_contra hk
  push_neg at hk
  rw [List.getElem?_append_right (by simpa using hk), List.length_replicate] at h
  cases b with
  | false => simp at h
  | true =>
    simp only [cond] at h
    cases hd : k - m with
    | zero => rw [hd] at h; simp at h
    | succ j => rw [hd] at h; simp at h

lemma set_repl_app_false (m : Nat) :
    (List.replicate m true ++ [false]).set m true = List.replicate (m + 1) true := by
  induction m with
  | zero => rfl
  | succ m ih =>
    rw [List.replicate_succ, List.cons_append, List.set_cons_succ, ih,
      ← List.replicate_succ]

/-- The engine preserves the reachable-state invariant: from any state
satisfying the entry precondition, a successful step ends in an invariant
state. -/
lemma engineStep_inv (mws : List (List Nat)) :
    ∀ (fuel : Nat) (call : EngCall) (st st' : MwState),
      EngPre call st → engineStep mws fuel call st = .ok st' → MwInv st' := by
  intro fuel
  induction fuel with
  | zero => intro call st st' _ h; simp [engineStep] at h
  | succ fuel ih =>
    intro call st st' hpre h
    match call with
    | .next i =>
      obtain ⟨hc, hidx, htr⟩ := hpre
      rw [engineStep] at h
      rw [if_neg (by rw [hidx]; omega)] at h
      cases hm : mws[i]? with
      | none =>
        rw [hm] at h
        cases h
        refine ⟨i, false, ?_, ?_, ?_⟩
        · show st.called = List.replicate i true ++ (cond false [false] [])
          rw [hc]
          simp
        · rfl
        · show st.trace = List.range st.called.length
          rw [htr, hc, List.length_replicate]
      | some body =>
        rw [hm] at h
        refine ih (.acts body) _ st' ?_ h
        refine ⟨i, true, ?_, ?_, ?_⟩
        · show st.called ++ [false] = List.replicate i true ++ (cond true [false] [])
          rw [hc]
          rfl
        · rfl
        · show st.trace ++ [i] = List.range (st.called ++ [false]).length
          rw [htr, hc, List.length_append, List.length_replicate]
          simp [List.range_succ]
    | .acts [] =>
      rw [engineStep] at h
      cases h
      exact hpre
    | .acts (k :: rest) =>
      rw [engineStep] at h
      cases hstep : engineStep mws fuel (.invoke k) st with
      | error e => rw [hstep] at h; cases h
      | ok stm =>
        rw [hstep] at h
        exact ih (.acts rest) stm st' (ih (.invoke k) st stm hpre hstep) h
    | .invoke k =>
      obtain ⟨m, b, hc, hidx, htr⟩ := hpre
      rw [engineStep] at h
      cases hck : st.called[k]? with
      | none => rw [hck] at h; cases h
      | some flag =>
        cases flag with
        | true => rw [hck] at h; cases h
        | false =>
          rw [hck] at h
          obtain ⟨hb, hk⟩ := called_some_false (hc ▸ hck)
          refine ih (.next (k + 1)) _ st' ?_ h
          refine ⟨?_, ?_, ?_⟩
          · show st.called.set k true = List.replicate (k + 1) true
            rw [hc, hb, hk]
            simpa only [cond] using set_repl_app_false m
          · show st.index = ((k + 1 : Nat) : Int) - 1
            rw [hidx, hk]
            omega
          · show st.trace = List.range (k + 1)
            rw [htr, hc, hb, hk]
            simp [cond]

/-- C2: for every registered chain and every frame in a reachable engine
state, the continuation of frame `k`, called while its single-use flag is
still clear (a first call), passes both guards and invokes exactly the
next-indexed middleware `k + 1` — entering it into the trace and handing it
a fresh flag — or terminates the chain successfully when no middleware
exists there; called while its flag is set (a second call, whether from its
own frame or from any other frame holding the stale closure), it raises the
double-invocation error, and at that point the monotonic index guard's
condition `k + 1 ≤ index` holds as well, so both the per-frame single-use
flag and the index guard detect the misuse.  Moreover every successful run
executes exactly the middlewares `0, 1, …` in order, each once. -/
theorem runMiddlewares_continuation_discipline (mws : List (List Nat)) :
    (∀ (fuel : Nat) (st : MwState) (k : Nat), MwInv st → st.called[k]? = some false →
      engineStep mws (fuel + 2) (.invoke k) st =
        (match mws[k + 1]? with
          | none =>
              .ok { index := ((k + 1 : Nat) : Int), called := st.called.set k true,
                    trace := st.trace }
          | some body =>
              engineStep mws fuel (.acts body)
                { index := ((k + 1 : Nat) : Int), called := st.called.set k true ++ [false],
                  trace := st.trace ++ [k + 1] })) ∧
    (∀ (fuel : Nat) (st : MwState) (k : Nat), MwInv st → st.called[k]? = some true →
      engineStep mws (fuel + 1) (.invoke k) st = .error (.doubleInvocation (k : Int)) ∧
        (k : Int) + 1 ≤ st.index) ∧
    (∀ st : MwState, runMiddlewares mws = .ok st →
      st.trace = List.range st.called.length) := by
  refine ⟨?_, ?_, ?_⟩
  · intro fuel st k hinv hck
    obtain ⟨m, b, hc, hidx, htr⟩ := hinv
    obtain ⟨hb, hk⟩ := called_some_false (hc ▸ hck)
    simp only [engineStep]
    rw [hck]
    simp only [engineStep]
    rw [if_neg (by show ¬(((k + 1 : Nat) : Int) ≤ st.index); rw [hidx, hk]; omega)]
  · intro fuel st k hinv hck
    obtain ⟨m, b, hc, hidx, htr⟩ := hinv
    have hkm : k < m := called_some_true (hc ▸ hck)
    constructor
    · simp only [engineStep]
      rw [hck]
    · rw [hidx]
      omega
  · intro st h
    obtain ⟨m, b, hc, hidx, htr⟩ :=
      engineStep_inv mws (engineFuel mws) (.next 0) mwStart st ⟨rfl, by decide, rfl⟩ h
    exact htr

/-- Witness for C2 on the concrete chain `[[0], [1]]`: a first call of frame
0's continuation runs middleware 1; a second call of frame 0's continuation
from the state in which its flag is consumed errors with both guard
conditions holding; and the successful full run has trace `[0, 1]`. -/
theorem runMiddlewares_continuation_discipline_witness :
    (engineStep [[0], [1]] 3 (.invoke 0) ⟨0, [false], [0]⟩ =
        engineStep [[0], [1]] 1 (.acts [1]) ⟨1, [true, false], [0, 1]⟩) ∧
    (engineStep [[0], [1]] 1 (.invoke 0) ⟨1, [true], [0]⟩ =
        .error (.doubleInvocation 0) ∧ (0 : Int) + 1 ≤ (1 : Int)) ∧
    (⟨2, [true, true], [0, 1]⟩ : MwState).trace = List.range 2 := by
  refine ⟨?_, ?_, ?_⟩
  · exact (runMiddlewares_continuation_discipline [[0], [1]]).1 1 ⟨0, [false], [0]⟩ 0
      ⟨0, true, rfl, rfl, rfl⟩ rfl
  · exact (runMiddlewares_continuation_discipline [[0], [1]]).2.1 0 ⟨1, [true], [0]⟩ 0
      ⟨1, false, rfl, rfl, rfl⟩ rfl
  · exact (runMiddlewares_continuation_discipline [[0], [1]]).2.2 ⟨2, [true, true], [0, 1]⟩ rfl

/-! ## Dispatch and response-builder claims -/

/-- C1: after the middleware pass of a dispatch, a finalized Response Record
(`res._sent`) makes the dispatch return the middleware-built response and
perform no network call; an unfinalized one makes it perform exactly one
network call — carrying the fully normalized URL, method, headers and body,
the fields of `wireCall` — and return that call's result. -/
theorem xfetch_dispatch_branches (jp : String → Option JVal)
    (mw : ReqObj → ResState → ReqObj × ResState) (input : FetchInput) (init : FetchInit) :
    ((mw (normalizeReq jp input init).req {}).2.sent = true →
      xfetch jp mw input init =
        { result := .middlewareResponse (mw (normalizeReq jp input init).req {}).2.response,
          calls := [] }) ∧
    ((mw (normalizeReq jp input init).req {}).2.sent = false →
      xfetch jp mw input init =
        { result := .network (wireCall jp input init),
          calls := [wireCall jp input init] }) := by
  constructor <;> intro h <;> simp [xfetch, h]

/-- Witness for C1: a middleware pass that ends the response short-circuits
the concrete dispatch with no network call, and the identity pass falls
through to exactly one network call. -/
theorem xfetch_dispatch_branches_witness :
    (xfetch (fun _ => none) (fun r s => (r, resEnd s (.str "ok"))) (.str "/a") {} =
      { result := .middlewareResponse
          ((fun (r : ReqObj) (s : ResState) => (r, resEnd s (.str "ok")))
              (normalizeReq (fun _ => none) (.str "/a") {}).req {}).2.response,
        calls := [] }) ∧
    (xfetch (fun _ => none) (fun r s => (r, s)) (.str "/a") {} =
      { result := .network (wireCall (fun _ => none) (.str "/a") {}),
        calls := [wireCall (fun _ => none) (.str "/a") {}] }) :=
  ⟨(xfetch_dispatch_branches _ _ _ _).1 rfl, (xfetch_dispatch_branches _ _ _ _).2 rfl⟩

/-- C9: when no middleware finalizes the response, the network calls of the
dispatch are exactly `[wireCall jp input init]` — a value computed by URL
composition and request normalization alone, with no dependence on the
middleware transformation.  Assignments middlewares make to the Request
Record's `method`, `url`, `protocol`, `headers`, `query` or `body` fields
therefore have no effect on what is sent over the wire (the source passes
its local pre-pass variables to `fetch`, not the record). -/
theorem xfetch_wire_frame (jp : String → Option JVal)
    (mw : ReqObj → ResState → ReqObj × ResState) (input : FetchInput) (init : FetchInit) :
    (mw (normalizeReq jp input init).req {}).2.sent = false →
      (xfetch jp mw input init).calls = [wireCall jp input init] := by
  intro h
  simp [xfetch, h]

/-- Witness for C9: a middleware pass that rewrites every Request Record
field leaves the concrete wire call unchanged. -/
theorem xfetch_wire_frame_witness :
    (xfetch (fun _ => none)
        (fun r s =>
          ({ r with
             method := "DELETE", url := "/mutated", protocol := "ftp",
             headers := [("x", "y")], query := .null, body := .null }, s))
        (.str "/a") { body := .str "payload" }).calls =
      [wireCall (fun _ => none) (.str "/a") { body := .str "payload" }] :=
  xfetch_wire_frame _ _ _ _ rfl

/-- C8: calling `end()` again with no argument on a Response Record already
finalized by `end(chunk)`, with no intervening write, status or header
mutation, rebuilds a deliverable with the same observable content — the
`response` field (status, headers, content type and body bytes) is
unchanged. -/
theorem resEnd_idempotent (st : ResState) (chunk : JsVal) :
    (resEnd (resEnd st chunk) .undefined).response = (resEnd st chunk).response := rfl

/-- C10: `end` ignores falsy non-null chunks — `end('')`, `end(0)` and
`end(false)` behave exactly like `end()` with no argument — while `write` on
the same values does append a chunk: an empty chunk for `''`, and the UTF-8
bytes of the stringification for `0` and `false`. -/
theorem resEnd_falsy_ignored_write_appends (st : ResState) :
    (resEnd st (.str "") = resEnd st .undefined ∧
     resEnd st (.num 0) = resEnd st .undefined ∧
     resEnd st (.bool false) = resEnd st .undefined) ∧
    (resWrite st (.str "") = { st with chunks := st.chunks ++ [[]] } ∧
     resWrite st (.num 0) = { st with chunks := st.chunks ++ [utf8 "0"] } ∧
     resWrite st (.bool false) = { st with chunks := st.chunks ++ [utf8 "false"] }) :=
  ⟨⟨rfl, rfl, rfl⟩, ⟨rfl, rfl, rfl⟩⟩

/-! ## Normalization claims -/

/-- C3 counterexample: with `init.method` absent and `init.body = ''` — a
non-null body — the source resolves the method to `GET`, while the claim
("`POST` whenever `init.body` is non-null") requires `POST`: the default is
selected by JS truthiness (`init.body ? 'POST' : 'GET'`), and the empty
string is falsy. -/
theorem computeMethod_nonnull_falsy_cex :
    computeMethod none (.str "") = "GET" ∧ (JsVal.str "").isNullish = false ∧
      ("GET" : String) ≠ "POST" :=
  ⟨rfl, rfl, by decide⟩

/-- C3 amended: explicit `init.method` wins (upper-cased) when it is a
non-empty string; otherwise — `init.method` absent or empty — the method is
`POST` exactly when `init.body` is truthy and `GET` otherwise.  Stated as
equality with the spec-side restatement `specMethod`. -/
theorem computeMethod_eq_specMethod (m : Option String) (body : JsVal) :
    computeMethod m body = specMethod m body := by
  have hP : upperStr "POST" = "POST" := by decide
  have hG : upperStr "GET" = "GET" := by decide
  cases m with
  | none =>
    simp only [computeMethod, specMethod]
    cases hb : body.truthy <;> simp [hb, hP, hG]
  | some s =>
    by_cases hs : s = ""
    · subst hs
      simp only [computeMethod, specMethod]
      cases hb : body.truthy <;> simp [hb, hP, hG]
    · simp only [computeMethod, specMethod]
      simp [hs]

/-- C4 counterexample: a `Uint8Array` body — a binary payload the claim
requires to be left as-is with no content-type inference — is JSON-serialized
by the source (it passes the `typeof body === 'object' && !(body instanceof
Blob) && !(body instanceof FormData)` test), and the `Content-Type` defaults
to `application/json`. -/
theorem encodeBody_uint8_cex :
    (encodeBody [] (.uint8 [104, 105])).2 = .str "\x7b\"0\":104,\"1\":105\x7d" ∧
    (encodeBody [] (.uint8 [104, 105])).2 ≠ .uint8 [104, 105] ∧
    hdrGet (encodeBody [] (.uint8 [104, 105])).1 "Content-Type" =
      some "application/json" := by
  refine ⟨rfl, ?_, rfl⟩
  intro h
  simp [encodeBody] at h

/-- C4 amended: nullish bodies untouched; a URL-parameter container untouched
with form-urlencoded content-type defaulting; any other non-null body of
object type that is neither `Blob` nor `FormData` — plain objects/arrays but
also typed arrays — JSON-serialized with `application/json` defaulting; all
remaining bodies left as-is.  Stated as equality with the spec-side
restatement `specEncodeBody`. -/
theorem encodeBody_eq_specEncodeBody (h : List (String × String)) (body : JsVal) :
    encodeBody h body = specEncodeBody h body := by
  cases body <;> rfl

/-- C6 counterexample: for a `Uint8Array` payload — a binary payload, not a
plain object or array — `send` behaves exactly like `json` and not like
`end`: the `isJSON` test of the source only excludes `null` and `Blob`s. -/
theorem resSend_uint8_cex :
    resSend {} (.uint8 [104]) = resJson {} (.uint8 [104]) ∧
    resSend {} (.uint8 [104]) ≠ resEnd {} (.uint8 [104]) := by
  refine ⟨rfl, ?_⟩
  decide

/-- C6 amended: `send(data)` behaves exactly like `json(data)` precisely when
`data` is non-null, of object type, and not a `Blob` — plain objects and
arrays, but also typed arrays and form containers — and exactly like
`end(data)` otherwise (null, undefined, strings, numbers, booleans,
`Blob`s). -/
theorem resSend_eq_spec (st : ResState) (data : JsVal) :
    resSend st data = (if specSendJson data then resJson st data else resEnd st data) := by
  cases data <;> rfl

/-- C5 counterexample: an empty-string body under a form-urlencoded
`Content-Type` is returned unchanged — the `if (!body || !type)` guard fires
on the falsy body — whereas the claim's "a `Content-Type` containing
`application/x-www-form-urlencoded` yields a flat key-to-value mapping"
requires the empty mapping here. -/
theorem parseBody_empty_form_cex :
    parseBody (fun _ => none) (.str "")
        [("content-type", "application/x-www-form-urlencoded")] = .str "" ∧
    JsVal.str "" ≠ .obj [] :=
  ⟨rfl, by simp⟩

/-- C5 amended: populating the decoded body never raises (the function is
total, the JSON branch falls back on parse failure), and: a falsy body is
returned unchanged regardless of `Content-Type`; an absent `Content-Type`
passes the body through; for truthy bodies, a type containing
`application/json` yields the parsed JSON value or, when parsing fails, the
raw body unchanged; a type containing `application/x-www-form-urlencoded`
(and not the JSON marker) yields the flat key-to-value mapping decoded from
the body; any other type passes the body through unchanged. -/
theorem parseBody_decode_policy (jp : String → Option JVal) (body : JsVal)
    (headers : List (String × String)) :
    (body.truthy = false → parseBody jp body headers = body) ∧
    (hdrGet headers "Content-Type" = none → parseBody jp body headers = body) ∧
    (∀ t, body.truthy = true → hdrGet headers "Content-Type" = some t →
      strIncludes t "application/json" = true →
      parseBody jp body headers =
        (match jp body.toJSStr with
          | some v => jvalToJsVal v
          | none => body)) ∧
    (∀ t, body.truthy = true → hdrGet headers "Content-Type" = some t →
      strIncludes t "application/json" = false →
      strIncludes t "application/x-www-form-urlencoded" = true →
      parseBody jp body headers =
        .obj ((fromEntries (uspOf body)).map fun p => (p.1, JVal.str p.2))) ∧
    (∀ t, hdrGet headers "Content-Type" = some t →
      strIncludes t "application/json" = false →
      strIncludes t "application/x-www-form-urlencoded" = false →
      parseBody jp body headers = body) := by
  refine ⟨?_, ?_, ?_, ?_, ?_⟩
  · intro hb
    simp [parseBody, hb]
  · intro hct
    cases hb : body.truthy <;> simp [parseBody, hb, hct]
  · intro t hb hct hjson
    by_cases ht : t = ""
    · subst ht
      exact absurd hjson (by decide)
    · simp [parseBody, hb, hct, ht, hjson]
  · intro t hb hct hjson hform
    by_cases ht : t = ""
    · subst ht
      exact absurd hform (by decide)
    · simp [parseBody, hb, hct, ht, hjson, hform]
  · intro t hct hjson hform
    by_cases ht : t = ""
    · subst ht
      cases hb : body.truthy <;> simp [parseBody, hb, hct]
    · cases hb : body.truthy <;> simp [parseBody, hb, hct, ht, hjson, hform]

/-- Witness for the amended C5, exercising each decode branch at a concrete
input: a falsy body, an absent content type, a successful and a failing JSON
parse, a form decode, and an unrecognized type. -/
theorem parseBody_decode_policy_witness :
    parseBody (fun _ => none) (.str "") [("content-type", "application/json")] = .str "" ∧
    parseBody (fun _ => none) (.str "x") [] = .str "x" ∧
    parseBody (fun _ => some (.obj [("a", .num 1)])) (.str "\x7b\"a\":1\x7d")
      [("content-type", "application/json")] = .obj [("a", .num 1)] ∧
    parseBody (fun _ => none) (.str "not json")
      [("content-type", "application/json")] = .str "not json" ∧
    parseBody (fun _ => none) (.str "a=1&b=2")
      [("content-type", "application/x-www-form-urlencoded")] =
      .obj [("a", .str "1"), ("b", .str "2")] ∧
    parseBody (fun _ => none) (.str "x") [("content-type", "text/plain")] = .str "x" := by
  refine ⟨?_, ?_, ?_, ?_, ?_, ?_⟩
  · exact (parseBody_decode_policy _ _ _).1 rfl
  · exact (parseBody_decode_policy _ _ _).2.1 rfl
  · exact (parseBody_decode_policy _ _ _).2.2.1 "application/json" rfl rfl (by decide)
  · exact (parseBody_decode_policy _ _ _).2.2.1 "application/json" rfl rfl (by decide)
  · exact (parseBody_decode_policy _ _ _).2.2.2.1 "application/x-www-form-urlencoded"
      rfl rfl (by decide) (by decide)
  · exact (parseBody_decode_policy _ _ _).2.2.2.2 "text/plain" rfl (by decide) (by decide)

/-! ## Query composition and coercion (C7) -/

lemma takeWhile_all {p : Char → Bool} {l : List Char} (h : ∀ c ∈ l, p c = true) :
    l.takeWhile p = l := by
  induction l with
  | nil => rfl
  | cons c t ih =>
    rw [List.takeWhile_cons, if_pos (h c (by simp))]
    exact congrArg (c :: ·) (ih fun d hd => h d (by simp [hd]))

lemma takeWhile_append_all {p : Char → Bool} (l1 l2 : List Char)
    (h : ∀ c ∈ l1, p c = true) :
    (l1 ++ l2).takeWhile p = l1 ++ l2.takeWhile p := by
  induction l1 with
  | nil => rfl
  | cons c t ih =>
    rw [List.cons_append, List.takeWhile_cons, if_pos (h c (by simp))]
    exact congrArg (c :: ·) (ih fun d hd => h d (by simp [hd]))

lemma listIncludes_single {c : Char} : ∀ {l : List Char}, c ∉ l → listIncludes l [c] = false := by
  intro l h
  induction l with
  | nil => rfl
  | cons d t ih =>
    have hd : (d = c) = False := by
      simp only [eq_iff_iff, iff_false]
      rintro rfl
      exact h (by simp)
    have ht : c ∉ t := fun hh => h (by simp [hh])
    simp [listIncludes, listStartsWith, hd, ih ht]

/-- The `search` component of a parsed URL, unfolded: everything from the
first `?` that precedes any `#`. -/
lemma parseURL_search (s : String) :
    (parseURL s).search =
      ⟨(s.data.takeWhile (fun c => c ≠ '#')).drop
        ((s.data.takeWhile (fun c => c ≠ '#')).takeWhile (fun c => c ≠ '?')).length⟩ := rfl

lemma searchChars (u q : List Char) (hu1 : ('?' : Char) ∉ u) (hu2 : ('#' : Char) ∉ u)
    (hq : ('#' : Char) ∉ q) :
    ((u ++ '?' :: q).takeWhile (fun c => (c ≠ '#' : Bool))).drop
      (((u ++ '?' :: q).takeWhile (fun c => (c ≠ '#' : Bool))).takeWhile
        (fun c => (c ≠ '?' : Bool))).length = '?' :: q := by
  have h1 : (u ++ '?' :: q).takeWhile (fun c => (c ≠ '#' : Bool)) = u ++ '?' :: q := by
    apply takeWhile_all
    intro c hc
    simp only [decide_eq_true_eq]
    rcases List.mem_append.mp hc with hcu | hcq
    · rintro rfl; exact hu2 hcu
    · rcases List.mem_cons.mp hcq with rfl | hcq'
      · decide
      · rintro rfl; exact hq hcq'
  rw [h1]
  have h2 : (u ++ '?' :: q).takeWhile (fun c => (c ≠ '?' : Bool)) = u := by
    rw [takeWhile_append_all u _ (by intro c hc; simp only [decide_eq_true_eq]; rintro rfl; exact hu1 hc)]
    rw [List.takeWhile_cons, if_neg (by decide)]
    exact List.append_nil u
  rw [h2]
  exact List.drop_left u ('?' :: q)

/-- For a base URL containing neither `?` nor `#`, the parsed composed URL's
query component is exactly the appended query string. -/
lemma parseURL_search_append (u q : String) (hu1 : ('?' : Char) ∉ u.data)
    (hu2 : ('#' : Char) ∉ u.data) (hq : ('#' : Char) ∉ q.data) :
    (parseURL (u ++ ("?" ++ q))).search = "?" ++ q := by
  have hdata : (u ++ ("?" ++ q)).data = u.data ++ '?' :: q.data := by
    simp [String.data_append]
  rw [parseURL_search, hdata]
  exact congrArg String.mk (searchChars u.data q.data hu1 hu2 hq)

lemma qsStringify_id123 : qsStringify (.obj [("id", .num 123)]) = "id=123" := by
  simp only [qsStringify, qsTopEntries, qsEntries]
  rfl

lemma appendQueryParams_id123 (u : String) (hu : ('?' : Char) ∉ u.data) :
    appendQueryParams u (.obj [("id", .num 123)]) = u ++ "?id=123" := by
  have hinc : strIncludes u "?" = false := listIncludes_single hu
  simp only [appendQueryParams]
  have hcond : (!(JsVal.obj [("id", JVal.num 123)]).truthy) = false := rfl
  rw [hcond, hinc]
  simp only [Bool.false_eq_true, if_false]
  rw [qsStringify_id123, String.append_assoc]
  rfl

lemma coerce_noDigit_aux : ∀ n : Nat,
    (∀ v : JVal, sizeOf v ≤ n → noDigitStrings (coerceDigits v) = true) ∧
    (∀ xs : List JVal, sizeOf xs ≤ n → noDigitStringsElems (coerceElems xs) = true) ∧
    (∀ fs : List (String × JVal), sizeOf fs ≤ n →
      noDigitStringsFields (coerceFields fs) = true) := by
  intro n
  induction n with
  | zero =>
    refine ⟨?_, ?_, ?_⟩
    · intro v hv; cases v <;> simp_arith at hv
    · intro xs h; cases xs <;> simp_arith at h
    · intro fs h; cases fs <;> simp_arith at h
  | succ n ih =>
    obtain ⟨ihV, ihL, ihF⟩ := ih
    refine ⟨?_, ?_, ?_⟩
    · intro v hv
      cases v with
      | null => rfl
      | bool b => rfl
      | num m => rfl
      | str s => by_cases hd : isAllDigits s <;> simp [coerceDigits, noDigitStrings, hd]
      | arr xs =>
        simp only [coerceDigits]
        by_cases hd : isAllDigits (jvalToJSString (.arr xs))
        · rw [if_pos hd]; rfl
        · rw [if_neg hd]
          show noDigitStringsElems (coerceElems xs) = true
          apply ihL
          simp_arith at hv
          omega
      | obj fs =>
        show noDigitStringsFields (coerceFields fs) = true
        apply ihF
        simp_arith at hv
        omega
    · intro xs h
      cases xs with
      | nil => rfl
      | cons v t =>
        show (noDigitStrings (coerceDigits v) && noDigitStringsElems (coerceElems t)) = true
        simp_arith at h
        rw [ihV v (by omega), ihL t (by omega)]
        rfl
    · intro fs h
      cases fs with
      | nil => rfl
      | cons p t =>
        obtain ⟨k, v⟩ := p
        show (noDigitStrings (coerceDigits v) && noDigitStringsFields (coerceFields t)) = true
        simp_arith at h
        rw [ihV v (by omega), ihF t (by omega)]
        rfl

/-- After the source's numeric coercion no all-digit string remains anywhere
in the query structure. -/
lemma noDigitStrings_coerceDigits (v : JVal) : noDigitStrings (coerceDigits v) = true :=
  (coerce_noDigit_aux (sizeOf v)).1 v (Nat.le_refl _)

/-- C7 counterexample: for the base URL `/a#b` — which contains no query
string, as the claim requires — the appended `?id=123` lands inside the URL
fragment, so the normalized request's `query` is the empty mapping, not
`{id: 123}`. -/
theorem dispatch_query_fragment_cex :
    (normalizeReq (fun _ => none) (.str "/a#b")
        { query := .obj [("id", .num 123)] }).req.query = .obj [] ∧
    JVal.obj [] ≠ JVal.obj [("id", JVal.num 123)] := by
  constructor
  · have h : (normalizeReq (fun _ => none) (.str "/a#b")
          { query := .obj [("id", .num 123)] }).req.query =
        coerceDigits (qsParse (dropFirst
          (parseURL (appendQueryParams "/a#b" (.obj [("id", .num 123)]))).search)) := rfl
    rw [h, appendQueryParams_id123 "/a#b" (by decide)]
    rfl
  · simp

/-- C7 amended: for every dispatch with `init.query = {id: 123}` and a base
URL containing neither a query string nor a fragment, the composed URL is
the base followed by `?id=123`, and the normalized request's `query`
deep-equals `{id: 123}` with `123` a number; and in general the decoded
query coercion turns every all-digit string into its number, recursively
through the decoded structure (no all-digit string survives the coercion).
The claim as frozen omits the fragment condition; `/a#b` refutes it. -/
theorem dispatch_query_id123_coercion (jp : String → Option JVal) (input : FetchInput)
    (init : FetchInit) (hq : init.query = .obj [("id", .num 123)])
    (h1 : ('?' : Char) ∉ input.urlOf.data) (h2 : ('#' : Char) ∉ input.urlOf.data) :
    appendQueryParams input.urlOf init.query = input.urlOf ++ "?id=123" ∧
    (normalizeReq jp input init).req.query = .obj [("id", .num 123)] ∧
    (∀ s, isAllDigits s = true → coerceDigits (.str s) = .num (digitsToInt s)) ∧
    (∀ v : JVal, noDigitStrings (coerceDigits v) = true) := by
  have happ : appendQueryParams input.urlOf init.query = input.urlOf ++ "?id=123" := by
    rw [hq]
    exact appendQueryParams_id123 input.urlOf h1
  refine ⟨happ, ?_, ?_, noDigitStrings_coerceDigits⟩
  · have hs : (parseURL (input.urlOf ++ "?id=123")).search = "?id=123" :=
      parseURL_search_append input.urlOf "id=123" h1 h2 (by decide)
    have hq2 : (normalizeReq jp input init).req.query =
        coerceDigits (qsParse (dropFirst
          (parseURL (appendQueryParams input.urlOf init.query)).search)) := rfl
    rw [hq2, happ, hs]
    rfl
  · intro s hd
    simp [coerceDigits, hd]

/-- Witness for the amended C7 at the base URL `/api/user`: the composed URL,
the decoded numeric query, the leaf coercion at `"42"`, and the recursive
coercion through a nested structure. -/
theorem dispatch_query_id123_coercion_witness :
    appendQueryParams "/api/user" (JsVal.obj [("id", JVal.num 123)]) = "/api/user?id=123" ∧
    (normalizeReq (fun _ => none) (.str "/api/user")
        { query := .obj [("id", .num 123)] }).req.query = .obj [("id", .num 123)] ∧
    coerceDigits (.str "42") = .num 42 ∧
    noDigitStrings (coerceDigits
      (.obj [("a", .str "7"), ("b", .arr [.str "12", .str "x"])])) = true := by
  obtain ⟨h1, h2, h3, h4⟩ :=
    dispatch_query_id123_coercion (fun _ => none) (.str "/api/user")
      { query := .obj [("id", .num 123)] } rfl (by decide) (by decide)
  exact ⟨h1, h2, h3 "42" (by decide), h4 _⟩

/-! ## Sanity checks of the embedding on concrete values -/

example : runMiddlewares [[0], [1]] = .ok ⟨2, [true, true], [0, 1]⟩ := rfl
example : runMiddlewares [] = .ok ⟨0, [], []⟩ := rfl
example : runMiddlewares [[0, 0]] = .error (.doubleInvocation 0) := rfl
example : runMiddlewares [[0], [0]] = .error (.doubleInvocation 0) := rfl
example : runMiddlewares [[], [0]] = .ok ⟨0, [false], [0]⟩ := rfl
example :
    (resEnd (resEnd ({} : ResState) (.str "hi")) .undefined).response =
      (resEnd ({} : ResState) (.str "hi")).response := rfl
example : resSend ({} : ResState) (.uint8 []) = resJson ({} : ResState) (.uint8 []) := rfl
example : (resSend ({} : ResState) (.uint8 [])).headers = [("Content-Type", "application/json")] := rfl
example : (resEnd ({} : ResState) (.uint8 [])).headers = [] := rfl
example :
    (xfetch (fun _ => none) (fun r s => (r, s)) (.str "/a") {}).calls =
      [wireCall (fun _ => none) (.str "/a") {}] := rfl
example :
    (xfetch (fun _ => none) (fun r s => (r, resEnd s (.str "ok"))) (.str "/a") {}).calls =
      [] := rfl

example : qsStringify (.obj [("id", .num 123)]) = "id=123" := by
  simp only [qsStringify, qsTopEntries, qsEntries]
  rfl
example : appendQueryParams "/api/user" (.obj [("id", .num 123)]) = "/api/user?id=123" := by
  simp only [appendQueryParams, qsStringify, qsTopEntries, qsEntries]
  rfl
example : (parseURL "/api/user?id=123").search = "?id=123" := rfl
example : (parseURL "/api/user?id=123").pathname = "/api/user" := rfl
example : (parseURL "/a#b?id=123").search = "" := rfl
example : (parseURL "https://x.y/p?q=1").href = "https://x.y/p?q=1" := rfl
example : qsParse "id=123" = .obj [("id", .str "123")] := rfl
example : coerceDigits (qsParse "id=123") = .obj [("id", .num 123)] := rfl
example : extractProtocol "https://x" = some "https" := rfl
example : extractProtocol "/api" = none := rfl
example : computeMethod (some "get") .undefined = "GET" := rfl
example : computeMethod none (.str "") = "GET" := rfl
example : parseBody (fun _ => none) (.str "")
    [("content-type", "application/x-www-form-urlencoded")] = .str "" := rfl
example : parseBody (fun _ => some (.obj [("a", .num 1)])) (.str "x")
    [("content-type", "application/json")] = .obj [("a", .num 1)] := rfl
example : parseBody (fun _ => none) (.str "a=1&b=2")
    [("content-type", "application/x-www-form-urlencoded")] =
    .obj [("a", .str "1"), ("b", .str "2")] := rfl
example : (encodeBody [] (.uint8 [104, 105])).2 = .str "\x7b\"0\":104,\"1\":105\x7d" := rfl
example : jvalToJSString (.arr [.num 1, .null, .str "a"]) = "1,,a" := rfl
example : JsVal.truthy (.str "") = false := by decide
example : utf8 "0" = [48] := by decide
example : isAllDigits "123" = true := by decide
example : digitsToInt "123" = 123 := by decide
example : (JVal.obj [("id", JVal.num 123)]) = (JVal.obj [("id", JVal.num 123)]) := rfl
example : JsVal.str "" ≠ JsVal.obj [] := by simp
example : JsVal.toJSStr (.uint8 [1, 2, 3]) = "1,2,3" := rfl
example : lowerStr "Content-Type" = "content-type" := by decide
example : strIncludes "application/json;charset=utf8" "application/json" = true := by decide
example : hdrGet (hdrSet [] "Content-Type" "application/json") "content-TYPE" =
    some "application/json" := by decide
example : JVal.stringify (.obj [("0", .num 104), ("1", .num 105)]) =
    "\x7b\"0\":104,\"1\":105\x7d" := rfl
example : jsonStringifyJs (.uint8 [104, 105]) = some "\x7b\"0\":104,\"1\":105\x7d" := rfl
example : percentEncode "id" = "id" := by decide
example : (splitFirstEq "id=123".data).1 = "id".data := by decide
